import Mathlib

/-!
Verification of `src/my-reader.py` (string scanning with a persistent result
cache).  The program is embedded shallowly:

* Python `str` values are embedded as `List Nat` (Unicode code points), and
  byte strings as `List Nat` (byte values), so that every definition is
  executable and decidable on concrete inputs.
* Python dicts are embedded as insertion-ordered association lists with the
  update-in-place / append-if-new semantics of `dict.__setitem__`.
* `ahocorasick.Automaton` (external library `pyahocorasick`, used with
  `STORE_INTS`) is embedded as an arena of trie nodes with failure links;
  `add_word` / `make_automaton` / `iter_long` follow the library's documented
  behaviour: `iter_long` yields the leftmost longest non-overlapping matches,
  as pairs `(end index, stored value)`.
* `hashlib.sha256` is idealized as the byte sequence fed to the hasher
  (`update` appends, `hexdigest` is injective up to negligible collisions),
  so digest equality is byte-sequence equality of the hasher input.
* `json.load` / `json.dump` (external library) are embedded at the key-value
  level: a store file is either a well-formed serialized storage map or
  malformed content on which loading raises `json.JSONDecodeError`, a
  subclass of `ValueError`.
-/

namespace MyReader

/-- Python `str` as a list of Unicode code points. -/
abbrev PyStr := List Nat

/-! ### Python dict as an insertion-ordered association list -/

/-- Python `d.get(k)` / `d[k]` lookup on an association list. -/
def dictGet {α β : Type} [DecidableEq α] : List (α × β) → α → Option β
  | [], _ => none
  | e :: rest, k => if e.1 = k then some e.2 else dictGet rest k

/-- Python `d[k] = v`: update in place if the key exists, append otherwise. -/
def dictSet {α β : Type} [DecidableEq α] : List (α × β) → α → β → List (α × β)
  | [], k, v => [(k, v)]
  | e :: rest, k, v => if e.1 = k then (k, v) :: rest else e :: dictSet rest k v

/-- Python `d[k] += 1` on a counter dict.  In the program the key is always
present (every value stored in the automaton indexes a pattern that is a key
of `occurrences`), so the missing-key case (a `KeyError` in Python) is
modelled as a no-op; it is unreachable on the states the program builds. -/
def dictBump {α : Type} [DecidableEq α] : List (α × Nat) → α → List (α × Nat)
  | [], _ => []
  | e :: rest, k => if e.1 = k then (e.1, e.2 + 1) :: rest else e :: dictBump rest k

/-- Keys of a dict, in insertion order. -/
def dictKeys {α β : Type} (d : List (α × β)) : List α := d.map Prod.fst

/-- Lookup with a default value. -/
def dictGetD {α β : Type} [DecidableEq α] (d : List (α × β)) (k : α) (v : β) : β :=
  (dictGet d k).getD v

/-- Boolean list membership. -/
def listMem {α : Type} [DecidableEq α] (x : α) : List α → Bool
  | [] => false
  | y :: ys => if y = x then true else listMem x ys

/-- The distinct elements of a list in first-occurrence order: the key set of
the Python dict comprehension built from the list. -/
def pyDedup {α : Type} [DecidableEq α] (xs : List α) : List α :=
  xs.foldl (fun acc x => if listMem x acc then acc else acc ++ [x]) []

/-- Occurrences of an element in a list. -/
def countEq {α : Type} [DecidableEq α] (x : α) : List α → Nat
  | [] => 0
  | y :: ys => (if y = x then 1 else 0) + countEq x ys

/-! ### UTF-8 encoding and decoding

`FileHandler.read_file` opens the file with `encoding='utf-8',
errors='ignore'`, so the file's bytes are decoded to code points with every
malformed byte dropped, following CPython's UTF-8 decoder: lead bytes
determine the sequence length, continuation bytes are `0x80..0xBF` with the
restricted ranges after `0xE0`, `0xED`, `0xF0` and `0xF4` that exclude
overlong forms, surrogates and code points above `0x10FFFF`; on a malformed
sequence the offending bytes are skipped. -/

/-- One code point to its UTF-8 bytes (`str.encode('utf-8')`, per character). -/
def encodeChar (c : Nat) : List Nat :=
  if c < 0x80 then [c]
  else if c < 0x800 then
    [0xC0 + c / 0x40, 0x80 + c % 0x40]
  else if c < 0x10000 then
    [0xE0 + c / 0x1000, 0x80 + c / 0x40 % 0x40, 0x80 + c % 0x40]
  else
    [0xF0 + c / 0x40000, 0x80 + c / 0x1000 % 0x40, 0x80 + c / 0x40 % 0x40, 0x80 + c % 0x40]

/-- Python `s.encode('utf-8')`. -/
def encodeUtf8 (s : PyStr) : List Nat := (s.map encodeChar).flatten

/-- Is `b` a UTF-8 continuation byte in the allowed range `[lo, hi]`? -/
def contIn (lo hi b : Nat) : Bool := lo ≤ b && b ≤ hi

/-- Decoding of a byte stream as UTF-8 with `errors='ignore'`: malformed
bytes are dropped, well-formed sequences yield their code point.  Each step
consumes at least one byte, so a fuel of the stream length suffices. -/
def decodeUtf8IgnoreF : Nat → List Nat → PyStr
  | 0, _ => []
  | _, [] => []
  | fuel + 1, b :: rest =>
    if b < 0x80 then b :: decodeUtf8IgnoreF fuel rest
    else if b < 0xC2 then
      -- stray continuation byte or overlong lead 0xC0/0xC1: dropped
      decodeUtf8IgnoreF fuel rest
    else if b < 0xE0 then
      match rest with
      | [] => []
      | b1 :: rest1 =>
        if contIn 0x80 0xBF b1 then
          ((b - 0xC0) * 0x40 + (b1 - 0x80)) :: decodeUtf8IgnoreF fuel rest1
        else decodeUtf8IgnoreF fuel rest
    else if b < 0xF0 then
      match rest with
      | [] => []
      | b1 :: rest1 =>
        let lo1 := if b = 0xE0 then 0xA0 else 0x80
        let hi1 := if b = 0xED then 0x9F else 0xBF
        if contIn lo1 hi1 b1 then
          match rest1 with
          | [] => []
          | b2 :: rest2 =>
            if contIn 0x80 0xBF b2 then
              ((b - 0xE0) * 0x1000 + (b1 - 0x80) * 0x40 + (b2 - 0x80)) ::
                decodeUtf8IgnoreF fuel rest2
            else decodeUtf8IgnoreF fuel rest1
        else decodeUtf8IgnoreF fuel rest
    else if b < 0xF5 then
      match rest with
      | [] => []
      | b1 :: rest1 =>
        let lo1 := if b = 0xF0 then 0x90 else 0x80
        let hi1 := if b = 0xF4 then 0x8F else 0xBF
        if contIn lo1 hi1 b1 then
          match rest1 with
          | [] => []
          | b2 :: rest2 =>
            if contIn 0x80 0xBF b2 then
              match rest2 with
              | [] => []
              | b3 :: rest3 =>
                if contIn 0x80 0xBF b3 then
                  ((b - 0xF0) * 0x40000 + (b1 - 0x80) * 0x1000 +
                    (b2 - 0x80) * 0x40 + (b3 - 0x80)) :: decodeUtf8IgnoreF fuel rest3
                else decodeUtf8IgnoreF fuel rest2
            else decodeUtf8IgnoreF fuel rest1
        else decodeUtf8IgnoreF fuel rest
    else
      -- invalid lead byte 0xF5..0xFF: dropped
      decodeUtf8IgnoreF fuel rest

/-- Decoding of a whole byte stream (`open(..., encoding='utf-8',
errors='ignore')` followed by reading everything). -/
def decodeUtf8Ignore (bytes : List Nat) : PyStr :=
  decodeUtf8IgnoreF bytes.length bytes

/-! ### FileHandler -/

/-- The fixed chunk size of `FileHandler.read_file` (`buffer_size=1024*1024`
characters per `f.read` call). -/
def bufferSize : Nat := 1024 * 1024

/-- Splitting a list into chunks of `n` elements; `fuel` bounds the
recursion and is always supplied as `length + 1`, which suffices for the
positive chunk size used by the program. -/
def chunksOfF {α : Type} : Nat → Nat → List α → List (List α)
  | 0, _, _ => []
  | _, _, [] => []
  | fuel + 1, n, xs => xs.take n :: chunksOfF fuel n (xs.drop n)

/-- The sequence of decoded chunks yielded by `FileHandler.read_file` given
the decoded file text. -/
def read_file (text : PyStr) : List PyStr :=
  chunksOfF (text.length + 1) bufferSize text

/-- One `hasher.update(data.encode('utf-8'))` step: the hasher state is the
byte sequence accumulated so far. -/
def hasherUpdate (hasher : List Nat) (data : PyStr) : List Nat :=
  hasher ++ encodeUtf8 data

/-- The digest of `FileHandler.compute_hash`, idealized as the byte sequence
fed to `hashlib.sha256` (hash collisions are cryptographically negligible, so
digest equality is modelled as equality of the hashed bytes). -/
def compute_hash (text : PyStr) : List Nat :=
  (read_file text).foldl hasherUpdate []

/-- The digest of a file given its raw bytes: the file is first decoded as
UTF-8 with `errors='ignore'` and the decoded text is re-encoded and hashed. -/
def fileDigest (fileBytes : List Nat) : List Nat :=
  compute_hash (decodeUtf8Ignore fileBytes)

/-! ### The pyahocorasick automaton -/

/-- One trie node: outgoing edges (symbol, child index), the stored value
of `add_word` when the node ends a word, and the failure link set by
`make_automaton`. -/
structure TNode where
  edges : List (Nat × Nat)
  out : Option Nat
  fail : Nat

/-- Node access in the arena (indices produced by construction are always in
range). -/
def nd (nodes : List TNode) (i : Nat) : TNode := nodes.getD i ⟨[], none, 0⟩

/-- Walk/create trie nodes for a word, storing `v` at its final node
(`Automaton.add_word(word, v)`; re-adding a word overwrites its value). -/
def addWordAux : List TNode → Nat → List Nat → Nat → List TNode
  | nodes, st, [], v =>
    let n := nd nodes st
    nodes.set st ⟨n.edges, some v, n.fail⟩
  | nodes, st, c :: cs, v =>
    match dictGet (nd nodes st).edges c with
    | some t => addWordAux nodes t cs v
    | none =>
      let fresh := nodes.length
      let n := nd nodes st
      addWordAux ((nodes.set st ⟨n.edges ++ [(c, fresh)], n.out, n.fail⟩) ++ [⟨[], none, 0⟩])
        fresh cs v

/-- `Automaton.add_word`: an empty word is not added (the call returns
`False` and leaves the trie unchanged). -/
def addWord (nodes : List TNode) (w : List Nat) (v : Nat) : List TNode :=
  if w.isEmpty then nodes else addWordAux nodes 0 w v

/-- Resolve the goto function through failure links: first explicit edge
along the failure chain, the root absorbing missing symbols. -/
def gotoResolve (nodes : List TNode) : Nat → Nat → Nat → Nat
  | 0, _, _ => 0
  | fuel + 1, st, c =>
    match dictGet (nd nodes st).edges c with
    | some t => t
    | none => if st = 0 then 0 else gotoResolve nodes fuel (nd nodes st).fail c

/-- Breadth-first computation of failure links (`make_automaton`): the root's
children fail to the root; a deeper child reached from `s` by symbol `c`
fails to the goto of `s`'s failure state on `c`. -/
def setFails : Nat → List TNode → List Nat → List TNode
  | 0, nodes, _ => nodes
  | _, nodes, [] => nodes
  | fuel + 1, nodes, s :: queue =>
    let es := (nd nodes s).edges
    let nodes' := es.foldl
      (fun ns e =>
        let f := if s = 0 then 0 else gotoResolve ns ns.length (nd ns s).fail e.1
        let n := nd ns e.2
        ns.set e.2 ⟨n.edges, n.out, f⟩) nodes
    setFails fuel nodes' (queue ++ es.map Prod.snd)

/-- `Automaton.make_automaton()`: finalize failure links over the whole trie
(the trie is a tree, so a breadth-first pass visits each node once and
`nodes.length` dequeue steps suffice). -/
def makeAutomaton (nodes : List TNode) : List TNode :=
  setFails nodes.length nodes [0]

/-- The compiled automaton of `SequenceSearcher._build_automaton`: every
`(index, pattern)` pair added, then `make_automaton`. -/
def buildAutomaton (patterns : List PyStr) : List TNode :=
  makeAutomaton ((patterns.enum).foldl (fun ns iw => addWord ns iw.2 iw.1) [⟨[], none, 0⟩])

/-- The scanning loop of `Automaton.iter_long`, which yields the leftmost
longest non-overlapping matches as `(end index, stored value)` pairs: the
cursor descends by explicit edges, remembering the most recent word-ending
node; on a dead end the remembered match (if any) is emitted and scanning
restarts at the root just after its end, otherwise the cursor follows its
failure link (the root skips the symbol); at the end of the input a
remembered match is emitted and the tail after it is rescanned. -/
def iterLongLoop (nodes : List TNode) (s : PyStr) :
    Nat → Nat → Nat → Option (Nat × Nat) → List (Nat × Nat)
  | 0, _, _, _ => []
  | fuel + 1, i, st, pending =>
    match s.get? i with
    | some c =>
      match dictGet (nd nodes st).edges c with
      | some st' =>
        let pending' :=
          match (nd nodes st').out with
          | some v => some (i, v)
          | none => pending
        iterLongLoop nodes s fuel (i + 1) st' pending'
      | none =>
        match pending with
        | some (li, v) => (li, v) :: iterLongLoop nodes s fuel (li + 1) 0 none
        | none =>
          if st = 0 then iterLongLoop nodes s fuel (i + 1) 0 none
          else iterLongLoop nodes s fuel i (nd nodes st).fail none
    | none =>
      match pending with
      | some (li, v) => (li, v) :: iterLongLoop nodes s fuel (li + 1) 0 none
      | none => []

/-- `Automaton.iter_long(data)` over a whole chunk.  The fuel is a crude
upper bound on the number of loop steps: between two emissions at most
`(length + 1) * (depth + 2)` steps occur and there are at most `length`
emissions. -/
def iterLong (nodes : List TNode) (s : PyStr) : List (Nat × Nat) :=
  iterLongLoop nodes s ((s.length + 2) * (s.length + nodes.length + 2)) 0 0 none

/-! ### SequenceSearcher -/

/-- The state of a `SequenceSearcher`: the pattern list, the compiled
automaton and the occurrence counter dict. -/
structure SequenceSearcher where
  patterns : List PyStr
  automaton : List TNode
  occurrences : List (PyStr × Nat)

/-- The occurrence dict `{pattern: 0 for pattern in patterns}`. -/
def initOccurrences (patterns : List PyStr) : List (PyStr × Nat) :=
  patterns.foldl (fun d p => dictSet d p 0) []

/-- `SequenceSearcher.__init__(patterns)`, including `_build_automaton`. -/
def SequenceSearcher.make (patterns : List PyStr) : SequenceSearcher :=
  ⟨patterns, buildAutomaton patterns, initOccurrences patterns⟩

/-- Python errors distinguished by the program: `ValueError` (which
`CommandLineInterface.run` catches; `json.JSONDecodeError` is one) and the
`InvalidPatternError` named by the specification but absent from the code. -/
inductive PyError where
  | valueError
  | invalidPatternError
deriving DecidableEq

/-- Constructing a `SequenceSearcher` with the Python exception channel made
explicit: the body of `__init__` contains no `raise` and no validation, so
construction always returns a searcher. -/
def sequenceSearcherNew (patterns : List PyStr) : Except PyError SequenceSearcher :=
  Except.ok (SequenceSearcher.make patterns)

/-- The patterns reported by `iter_long` on one chunk, in emission order
(`self.patterns[insert_order]` for each match). -/
def chunkMatches (patterns : List PyStr) (nodes : List TNode) (data : PyStr) : List PyStr :=
  (iterLong nodes data).map (fun m => patterns.getD m.2 [])

/-- `SequenceSearcher.search_in_data(data)`: bump the counter of each pattern
reported by `iter_long` over this chunk (each call scans its chunk with a
fresh iterator starting at the root). -/
def search_in_data (s : SequenceSearcher) (data : PyStr) : SequenceSearcher :=
  ⟨s.patterns, s.automaton,
    (chunkMatches s.patterns s.automaton data).foldl dictBump s.occurrences⟩

/-- `SequenceSearcher.get_results()`. -/
def SequenceSearcher.get_results (s : SequenceSearcher) : List (PyStr × Nat) :=
  s.occurrences

/-- Feeding a list of chunks in order to one searcher. -/
def feedChunks (patterns : List PyStr) (chunks : List PyStr) : SequenceSearcher :=
  chunks.foldl search_in_data (SequenceSearcher.make patterns)

/-! ### PersistentStorage and the orchestrator -/

/-- An occurrence table as serialized: pattern to count. -/
abbrev Table := List (PyStr × Nat)

/-- The in-memory store: digest to occurrence table. -/
abbrev Storage := List (List Nat × Table)

/-- The persisted store file: either well-formed JSON that deserializes to a
storage map, or malformed content on which `json.load` raises
`json.JSONDecodeError` (a subclass of `ValueError`). -/
inductive StoreFile where
  | valid (entries : Storage)
  | malformed
deriving DecidableEq

/-- `PersistentStorage._load_storage()`: an absent file is an empty store, a
present file is parsed by `json.load`, which raises on malformed content. -/
def load_storage : Option StoreFile → Except PyError Storage
  | none => Except.ok []
  | some (StoreFile.valid entries) => Except.ok entries
  | some StoreFile.malformed => Except.error PyError.valueError

/-- `PersistentStorage.save_storage()`: serialize the in-memory map,
overwriting the file. -/
def save_storage (storage : Storage) : StoreFile := StoreFile.valid storage

/-- `PersistentStorage.get_results(file_hash)`. -/
def PersistentStorage.get_results (storage : Storage) (fileHash : List Nat) : Option Table :=
  dictGet storage fileHash

/-- `PersistentStorage.store_results(file_hash, results)`. -/
def store_results (storage : Storage) (fileHash : List Nat) (results : Table) : Storage :=
  dictSet storage fileHash results

/-- Python truthiness of `results` in `if results:`: `None` and the empty
dict are falsy, a non-empty dict is truthy even if all counts are zero. -/
def truthy : Option Table → Bool
  | none => false
  | some t => !t.isEmpty

/-- The scan of the whole file on the cache-miss path: a fresh
`SequenceSearcher`, fed every chunk of `read_file`, then `get_results`. -/
def scanFile (patterns : List PyStr) (text : PyStr) : Table :=
  (feedChunks patterns (read_file text)).get_results

/-- The body of `CommandLineInterface.run` after the storage loaded: look the
digest up; on a truthy hit return the stored table and leave the store file
untouched; otherwise scan, store, and save the whole store. -/
def runLoaded (patterns : List PyStr) (text : PyStr) (storeFile : Option StoreFile)
    (storage : Storage) : Table × Option StoreFile :=
  if truthy (PersistentStorage.get_results storage (compute_hash text)) then
    ((PersistentStorage.get_results storage (compute_hash text)).getD [], storeFile)
  else
    (scanFile patterns text,
      some (save_storage (store_results storage (compute_hash text) (scanFile patterns text))))

/-- `CommandLineInterface.run` on a readable file, as a function of the
pattern list, the file's raw bytes and the persisted store file.  `none`
models a run that ends in the `except ValueError` handler and displays no
results; otherwise the displayed table and the resulting store file are
returned. -/
def run (patterns : List PyStr) (fileBytes : List Nat) (storeFile : Option StoreFile) :
    Option (Table × Option StoreFile) :=
  match load_storage storeFile with
  | Except.error _ => none
  | Except.ok storage =>
    some (runLoaded patterns (decodeUtf8Ignore fileBytes) storeFile storage)

/-! ### Dictionary lemmas -/

theorem dictGet_dictSet {α β : Type} [DecidableEq α] (d : List (α × β)) (k p : α) (v : β) :
    dictGet (dictSet d k v) p = if p = k then some v else dictGet d p := by
  induction d with
  | nil =>
    by_cases h : p = k
    · simp [dictSet, dictGet, h]
    · have h' : ¬ k = p := fun hh => h hh.symm
      simp [dictSet, dictGet, h, h']
  | cons e rest ih =>
    by_cases h1 : e.1 = k
    · by_cases h2 : p = k
      · simp [dictSet, dictGet, h1, h2]
      · have h3 : ¬ e.1 = p := fun hh => h2 (hh.symm.trans h1)
        have h4 : ¬ k = p := fun hh => h2 hh.symm
        simp [dictSet, dictGet, h1, h2, h3, h4]
    · by_cases h2 : e.1 = p
      · have h3 : ¬ p = k := fun hh => h1 (h2.symm ▸ hh)
        simp [dictSet, dictGet, h1, h2, h3]
      · simp [dictSet, dictGet, h1, h2, ih]

theorem dictSet_dictSet_self {α β : Type} [DecidableEq α] (d : List (α × β)) (k : α) (v w : β) :
    dictSet (dictSet d k v) k w = dictSet d k w := by
  induction d with
  | nil => simp [dictSet]
  | cons e rest ih =>
    by_cases h1 : e.1 = k
    · simp [dictSet, h1]
    · simp [dictSet, h1, ih]

theorem dictGet_dictBump {α : Type} [DecidableEq α] (d : List (α × Nat)) (k p : α) :
    dictGet (dictBump d k) p =
      if p = k then (dictGet d p).map (· + 1) else dictGet d p := by
  induction d with
  | nil => by_cases h : p = k <;> simp [dictBump, dictGet, h]
  | cons e rest ih =>
    by_cases h1 : e.1 = k
    · by_cases h2 : p = k
      · have h3 : e.1 = p := h1.trans h2.symm
        simp [dictBump, dictGet, h1, h2, h3]
      · have h3 : ¬ e.1 = p := fun hh => h2 (hh.symm.trans h1)
        have h4 : ¬ k = p := fun hh => h2 hh.symm
        simp [dictBump, dictGet, h1, h2, h3, h4]
    · by_cases h2 : e.1 = p
      · have h3 : ¬ p = k := fun hh => h1 (h2.symm ▸ hh)
        simp [dictBump, dictGet, h1, h2, h3]
      · simp [dictBump, dictGet, h1, h2, ih]

theorem isSome_dictGet_dictBump {α : Type} [DecidableEq α] (d : List (α × Nat)) (k p : α) :
    (dictGet (dictBump d k) p).isSome = (dictGet d p).isSome := by
  rw [dictGet_dictBump]
  by_cases h : p = k
  · cases hgd : dictGet d p <;> simp [h, hgd]
  · simp [h]

theorem dictGetD_dictBump {α : Type} [DecidableEq α] (d : List (α × Nat)) (k p : α) :
    dictGetD (dictBump d k) p 0 =
      dictGetD d p 0 + (if p = k ∧ (dictGet d p).isSome = true then 1 else 0) := by
  rw [dictGetD, dictGetD, dictGet_dictBump]
  by_cases h : p = k
  · cases hgd : dictGet d p <;> simp [h, hgd]
  · simp [h]

theorem dictKeys_dictBump {α : Type} [DecidableEq α] (d : List (α × Nat)) (k : α) :
    dictKeys (dictBump d k) = dictKeys d := by
  induction d with
  | nil => rfl
  | cons e rest ih =>
    by_cases h1 : e.1 = k
    · simp [dictBump, dictKeys, h1]
    · have hb : dictBump (e :: rest) k = e :: dictBump rest k := by
        simp [dictBump, h1]
      have h2 : dictKeys (e :: dictBump rest k) = e.1 :: dictKeys (dictBump rest k) := rfl
      have h3 : dictKeys (e :: rest) = e.1 :: dictKeys rest := rfl
      rw [hb, h2, h3, ih]

theorem listMem_dictKeys {α β : Type} [DecidableEq α] (d : List (α × β)) (k : α) :
    listMem k (dictKeys d) = (dictGet d k).isSome := by
  induction d with
  | nil => rfl
  | cons e rest ih =>
    have hk : dictKeys (e :: rest) = e.1 :: dictKeys rest := rfl
    rw [hk]
    by_cases h1 : e.1 = k
    · simp [listMem, dictGet, h1]
    · simp [listMem, dictGet, h1, ih]

theorem dictKeys_dictSet {α β : Type} [DecidableEq α] (d : List (α × β)) (k : α) (v : β) :
    dictKeys (dictSet d k v) =
      if listMem k (dictKeys d) then dictKeys d else dictKeys d ++ [k] := by
  induction d with
  | nil => simp [dictSet, dictKeys, listMem]
  | cons e rest ih =>
    by_cases h1 : e.1 = k
    · subst h1
      simp [dictSet, dictKeys, listMem]
    · have hset : dictSet (e :: rest) k v = e :: dictSet rest k v := by
        simp [dictSet, h1]
      have hkeys : dictKeys (e :: dictSet rest k v) = e.1 :: dictKeys (dictSet rest k v) := rfl
      have hk : dictKeys (e :: rest) = e.1 :: dictKeys rest := rfl
      have hmem : listMem k (e.1 :: dictKeys rest) = listMem k (dictKeys rest) := by
        simp [listMem, h1]
      rw [hset, hkeys, ih, hk, hmem]
      by_cases h3 : listMem k (dictKeys rest) <;> simp [h3]

/-! ### Folded counter lemmas -/

theorem getD_foldl_dictBump {α : Type} [DecidableEq α] (ws : List α)
    (d : List (α × Nat)) (p : α) :
    dictGetD (ws.foldl dictBump d) p 0 =
      dictGetD d p 0 + (if (dictGet d p).isSome = true then countEq p ws else 0) := by
  induction ws generalizing d with
  | nil => simp [countEq]
  | cons w ws ih =>
    rw [List.foldl_cons, ih, isSome_dictGet_dictBump, dictGetD_dictBump]
    have hcnt : countEq p (w :: ws) = (if w = p then 1 else 0) + countEq p ws := rfl
    rw [hcnt]
    by_cases hs : (dictGet d p).isSome = true
    · by_cases hw : p = w
      · subst hw
        simp [hs]
        omega
      · have hw' : ¬ w = p := fun hh => hw hh.symm
        simp [hs, hw, hw']
    · simp [hs]

theorem isSome_foldl_dictBump {α : Type} [DecidableEq α] (ws : List α)
    (d : List (α × Nat)) (p : α) :
    (dictGet (ws.foldl dictBump d) p).isSome = (dictGet d p).isSome := by
  induction ws generalizing d with
  | nil => rfl
  | cons w ws ih => rw [List.foldl_cons, ih, isSome_dictGet_dictBump]

theorem dictKeys_foldl_dictBump {α : Type} [DecidableEq α] (ws : List α)
    (d : List (α × Nat)) :
    dictKeys (ws.foldl dictBump d) = dictKeys d := by
  induction ws generalizing d with
  | nil => rfl
  | cons w ws ih => rw [List.foldl_cons, ih, dictKeys_dictBump]

/-! ### initOccurrences lemmas -/

theorem dictGetD_foldl_dictSet_zero (ps : List PyStr) (d : List (PyStr × Nat))
    (h : ∀ q, dictGetD d q 0 = 0) (p : PyStr) :
    dictGetD (ps.foldl (fun d x => dictSet d x 0) d) p 0 = 0 := by
  induction ps generalizing d with
  | nil => exact h p
  | cons x ps ih =>
    rw [List.foldl_cons]
    refine ih (dictSet d x 0) ?_
    intro q
    rw [dictGetD, dictGet_dictSet]
    by_cases hq : q = x
    · simp [hq]
    · simpa [hq, dictGetD] using h q

theorem dictGetD_initOccurrences (P : List PyStr) (p : PyStr) :
    dictGetD (initOccurrences P) p 0 = 0 := by
  refine dictGetD_foldl_dictSet_zero P [] ?_ p
  intro q
  rfl

theorem dictKeys_foldl_dictSet (ps : List PyStr) (d : List (PyStr × Nat)) :
    dictKeys (ps.foldl (fun d x => dictSet d x 0) d) =
      ps.foldl (fun acc x => if listMem x acc then acc else acc ++ [x]) (dictKeys d) := by
  induction ps generalizing d with
  | nil => rfl
  | cons x ps ih =>
    rw [List.foldl_cons, List.foldl_cons, ih, dictKeys_dictSet]

theorem dictKeys_initOccurrences (P : List PyStr) :
    dictKeys (initOccurrences P) = pyDedup P := by
  rw [initOccurrences, pyDedup, dictKeys_foldl_dictSet]
  rfl

/-! ### Encoding and chunking lemmas -/

theorem encodeUtf8_append (a b : PyStr) :
    encodeUtf8 (a ++ b) = encodeUtf8 a ++ encodeUtf8 b := by
  simp [encodeUtf8]

theorem foldl_hasherUpdate (chunks : List PyStr) (h0 : List Nat) :
    chunks.foldl hasherUpdate h0 = h0 ++ encodeUtf8 chunks.flatten := by
  induction chunks generalizing h0 with
  | nil => simp [encodeUtf8]
  | cons c cs ih =>
    rw [List.foldl_cons, hasherUpdate, ih, List.flatten_cons, encodeUtf8_append,
      List.append_assoc]

theorem chunksOfF_flatten {α : Type} (fuel n : Nat) (xs : List α)
    (hfuel : xs.length ≤ fuel) (hn : 1 ≤ n) :
    (chunksOfF fuel n xs).flatten = xs := by
  induction fuel generalizing xs with
  | zero =>
    have : xs = [] := List.length_eq_zero.mp (Nat.le_zero.mp hfuel)
    simp [this, chunksOfF]
  | succ fuel ih =>
    cases xs with
    | nil => simp [chunksOfF]
    | cons x rest =>
      have hfuel' : rest.length + 1 ≤ fuel + 1 := by simpa using hfuel
      have hdrop : ((x :: rest).drop n).length ≤ fuel := by
        simp only [List.length_drop, List.length_cons]
        omega
      have hstep : chunksOfF (fuel + 1) n (x :: rest) =
          (x :: rest).take n :: chunksOfF fuel n ((x :: rest).drop n) := rfl
      rw [hstep, List.flatten_cons, ih ((x :: rest).drop n) hdrop,
        List.take_append_drop]

theorem compute_hash_eq_encode (text : PyStr) :
    compute_hash text = encodeUtf8 text := by
  rw [compute_hash, foldl_hasherUpdate, read_file,
    chunksOfF_flatten (text.length + 1) bufferSize text (by omega) (by simp [bufferSize])]
  simp

/-! ### Scanner lemmas -/

theorem occ_foldl_search (chunks : List PyStr) (P : List PyStr) (A : List TNode)
    (occ : List (PyStr × Nat)) (p : PyStr) :
    dictGetD ((chunks.foldl search_in_data ⟨P, A, occ⟩).occurrences) p 0 =
      dictGetD occ p 0 +
        (if (dictGet occ p).isSome = true
          then (chunks.map (fun c => countEq p (chunkMatches P A c))).sum else 0) := by
  induction chunks generalizing occ with
  | nil => by_cases hs : (dictGet occ p).isSome = true <;> simp [hs]
  | cons c cs ih =>
    rw [List.foldl_cons]
    have hstep : search_in_data ⟨P, A, occ⟩ c =
        ⟨P, A, (chunkMatches P A c).foldl dictBump occ⟩ := rfl
    rw [hstep, ih, getD_foldl_dictBump, isSome_foldl_dictBump]
    by_cases hs : (dictGet occ p).isSome = true
    · simp [hs]
      omega
    · simp [hs]

theorem keys_foldl_search (chunks : List PyStr) (P : List PyStr) (A : List TNode)
    (occ : List (PyStr × Nat)) :
    dictKeys ((chunks.foldl search_in_data ⟨P, A, occ⟩).occurrences) = dictKeys occ := by
  induction chunks generalizing occ with
  | nil => rfl
  | cons c cs ih =>
    rw [List.foldl_cons]
    have hstep : search_in_data ⟨P, A, occ⟩ c =
        ⟨P, A, (chunkMatches P A c).foldl dictBump occ⟩ := rfl
    rw [hstep, ih, dictKeys_foldl_dictBump]

theorem dictKeys_scanFile (P : List PyStr) (text : PyStr) :
    dictKeys (scanFile P text) = pyDedup P := by
  have h1 : scanFile P text =
      ((read_file text).foldl search_in_data
        (⟨P, buildAutomaton P, initOccurrences P⟩ : SequenceSearcher)).occurrences := rfl
  rw [h1, keys_foldl_search, dictKeys_initOccurrences]

/-! ### The last value written for a key in a sequence of writes -/

/-- The table of the last write for key `k` among `writes`, if any. -/
def lastWrite (writes : List (List Nat × Table)) (k : List Nat) : Option Table :=
  match writes with
  | [] => none
  | w :: rest =>
    match lastWrite rest k with
    | some v => some v
    | none => if w.1 = k then some w.2 else none

theorem dictGet_foldl_dictSet_writes (writes : List (List Nat × Table)) (st0 : Storage)
    (k : List Nat) :
    dictGet (writes.foldl (fun st w => store_results st w.1 w.2) st0) k =
      match lastWrite writes k with
      | some v => some v
      | none => dictGet st0 k := by
  induction writes generalizing st0 with
  | nil => simp [lastWrite]
  | cons w rest ih =>
    rw [List.foldl_cons, ih, lastWrite]
    cases hlw : lastWrite rest k with
    | some v => simp
    | none =>
      simp only []
      by_cases h1 : w.1 = k
      · subst h1
        simp [store_results, dictGet_dictSet]
      · have h2 : ¬ k = w.1 := fun hh => h1 hh.symm
        simp [h1, store_results, dictGet_dictSet, h2]

/-! ### Claim C1: chunk-boundary behaviour of the scanner -/

/-- C1 counterexample: splitting the input "ab" into the chunks "a", "b"
yields a different occurrence table than feeding "ab" as one chunk (the
straddling occurrence of the pattern "ab" is missed), refuting
chunk-boundary independence of `search_in_data`. -/
theorem chunk_split_counterexample :
    (feedChunks [[97, 98]] [[97], [98]]).occurrences ≠
      (feedChunks [[97, 98]] [[97, 98]]).occurrences := by decide

/-- C1 (amended): feeding chunks C1..Cn in order to the scanner yields the
occurrence table in which every pattern's count is the sum of that pattern's
counts from scanning each chunk independently — each `search_in_data` call
creates a fresh `iter_long` iterator starting at the automaton root, so no
state survives between feed calls and occurrences straddling a chunk
boundary are not counted. -/
theorem chunk_feed_is_per_chunk_sum (P : List PyStr) (chunks : List PyStr) (p : PyStr) :
    dictGetD (feedChunks P chunks).occurrences p 0 =
      (chunks.map (fun c => dictGetD (feedChunks P [c]).occurrences p 0)).sum := by
  have hfeed : ∀ cs : List PyStr, (feedChunks P cs).occurrences =
      ((cs.foldl search_in_data
        (⟨P, buildAutomaton P, initOccurrences P⟩ : SequenceSearcher)).occurrences) :=
    fun cs => rfl
  have hone : ∀ c : PyStr, dictGetD (feedChunks P [c]).occurrences p 0 =
      (if (dictGet (initOccurrences P) p).isSome = true
        then countEq p (chunkMatches P (buildAutomaton P) c) else 0) := by
    intro c
    rw [hfeed, occ_foldl_search, dictGetD_initOccurrences]
    by_cases hs : (dictGet (initOccurrences P) p).isSome = true <;> simp [hs]
  rw [hfeed, occ_foldl_search, dictGetD_initOccurrences]
  simp only [hone]
  by_cases hs : (dictGet (initOccurrences P) p).isSome = true
  · simp [hs]
  · simp [hs]

/-! ### Claim C2: occurrence counting semantics -/

/-- C2 counterexample: with patterns "a","ab" over "xaby" the count of "a"
is 0, not 1, and with pattern "aa" over "aaaa" the count is 2, not 3 —
`iter_long` reports the leftmost longest non-overlapping matches, so the
claimed counts fail. -/
theorem overlap_counterexample :
    ¬ (dictGetD (search_in_data (SequenceSearcher.make [[97], [97, 98]])
          [120, 97, 98, 121]).occurrences [97] 0 = 1 ∧
       dictGetD (search_in_data (SequenceSearcher.make [[97, 97]])
          [97, 97, 97, 97]).occurrences [97, 97] 0 = 3) := by decide

/-- C2 (amended): the scanner counts the leftmost longest non-overlapping
matches of `iter_long`: occurrences overlapping an already reported match or
ending inside a longer pursued match are not counted; searching "a" and "ab"
over "xaby" yields counts a:0, ab:1, and searching "aa" over "aaaa" yields
count 2. -/
theorem longest_match_counts :
    (search_in_data (SequenceSearcher.make [[97], [97, 98]]) [120, 97, 98, 121]).occurrences =
      [([97], 0), ([97, 98], 1)] ∧
    (search_in_data (SequenceSearcher.make [[97, 97]]) [97, 97, 97, 97]).occurrences =
      [([97, 97], 2)] := by decide

/-! ### Claim C3: pattern validation -/

/-- C3 counterexample: constructing a `SequenceSearcher` from an empty
pattern sequence, or from a sequence containing an empty pattern, succeeds
(no `InvalidPatternError` is raised — the code performs no validation at
all), refuting the claimed validation failure. -/
theorem no_validation_counterexample :
    (sequenceSearcherNew []).toOption.isSome = true ∧
    (sequenceSearcherNew [[]]).toOption.isSome = true := ⟨rfl, rfl⟩

/-- C3 (amended): construction never fails: the code defines no
`InvalidPatternError` and validates nothing, accepting the empty pattern
sequence and empty patterns (an empty pattern is silently skipped by
`add_word` and keeps count zero forever). -/
theorem construction_always_succeeds (patterns : List PyStr) :
    (sequenceSearcherNew patterns).toOption.isSome = true := rfl

/-! ### Claim C4: result coverage -/

/-- C4 counterexample: a first run with pattern list ["a"] over the file
"a" stores its table; a second run with pattern list ["b"] over the same
file takes the cache-hit path (the cache key is only the file digest) and
returns the stored table, which has no entry for the supplied pattern "b". -/
theorem hit_path_ignores_patterns :
    run [[97]] [97] none =
      some ([([97], 1)], some (StoreFile.valid [([97], [([97], 1)])])) ∧
    run [[98]] [97] (some (StoreFile.valid [([97], [([97], 1)])])) =
      some ([([97], 1)], some (StoreFile.valid [([97], [([97], 1)])])) ∧
    dictGet ([([97], 1)] : Table) [98] = none := by decide

/-- C4 (amended): on the cache-miss path the returned mapping has exactly
one entry per distinct supplied pattern, in first-occurrence order and with
zero counts included; on the cache-hit path the mapping is whatever an
earlier run stored for the file digest and need not cover the currently
supplied pattern list. -/
theorem miss_result_covers_patterns (P : List PyStr) (X : List Nat) (st0 : Storage)
    (_hP1 : P ≠ []) (_hP2 : ([] : PyStr) ∉ P)
    (hmiss : truthy (PersistentStorage.get_results st0 (fileDigest X)) = false) :
    ∀ t sf, run P X (some (StoreFile.valid st0)) = some (t, sf) →
      dictKeys t = pyDedup P := by
  intro t sf h
  have hdg : fileDigest X = compute_hash (decodeUtf8Ignore X) := rfl
  rw [hdg] at hmiss
  have hrun : run P X (some (StoreFile.valid st0)) =
      some (runLoaded P (decodeUtf8Ignore X) (some (StoreFile.valid st0)) st0) := rfl
  rw [hrun] at h
  injection h with h1
  rw [runLoaded, hmiss] at h1
  simp only [Bool.false_eq_true, if_false] at h1
  injection h1 with ht hsf
  rw [← ht, dictKeys_scanFile]

/-- C4 witness: the amended theorem applied at pattern list ["a"], file
"a" and the empty storage. -/
theorem miss_result_covers_patterns_witness :
    (([[97]] : List PyStr) ≠ [] ∧ ([] : PyStr) ∉ ([[97]] : List PyStr) ∧
      truthy (PersistentStorage.get_results ([] : Storage) (fileDigest [97])) = false) ∧
    dictKeys ([([97], 1)] : Table) = pyDedup [[97]] :=
  ⟨⟨by decide, by decide, by decide⟩,
    miss_result_covers_patterns [[97]] [97] [] (by decide) (by decide) (by decide)
      [([97], 1)] (some (StoreFile.valid [([97], [([97], 1)])])) (by decide)⟩

/-! ### Claim C5: malformed cache store -/

/-- C5 counterexample: a run over the file "a" with pattern "a" and a
malformed store file returns no result (the `json.JSONDecodeError` raised by
`json.load` is a `ValueError`, caught by the run's handler before any
scanning), refuting the claim that a malformed cache never causes a run to
return no result. -/
theorem malformed_store_no_result :
    run [[97]] [97] (some StoreFile.malformed) = none := by decide

/-- C5 (amended): if the persisted store exists but is malformed, loading it
raises a decode error that `run` catches as `ValueError`; the run reports
the error and returns no result, and no scan is performed.  Only a missing
store file is treated as an empty cache. -/
theorem malformed_store_aborts_run (P : List PyStr) (X : List Nat) :
    run P X (some StoreFile.malformed) = none := rfl

/-! ### Claim C6: cache transparency -/

/-- C6: for every valid pattern set (non-empty, with no empty pattern) and
every input, running with a cold cache and then re-running with the store
file the first run saved yields the same occurrence table and leaves the
store unchanged — the hit path returns exactly what the miss path stored. -/
theorem cache_transparency (P : List PyStr) (X : List Nat) (st0 : Storage)
    (_hP1 : P ≠ []) (_hP2 : ([] : PyStr) ∉ P)
    (hmiss : PersistentStorage.get_results st0 (fileDigest X) = none) :
    ∀ t sf, run P X (some (StoreFile.valid st0)) = some (t, sf) →
      run P X sf = some (t, sf) := by
  intro t sf h
  have hdg : fileDigest X = compute_hash (decodeUtf8Ignore X) := rfl
  rw [hdg] at hmiss
  have hrun : run P X (some (StoreFile.valid st0)) =
      some (runLoaded P (decodeUtf8Ignore X) (some (StoreFile.valid st0)) st0) := rfl
  rw [hrun] at h
  injection h with h1
  rw [runLoaded, hmiss] at h1
  simp only [truthy, Bool.false_eq_true, if_false] at h1
  injection h1 with ht hsf
  subst ht
  subst hsf
  have hrun2 : run P X (some (save_storage (store_results st0
      (compute_hash (decodeUtf8Ignore X)) (scanFile P (decodeUtf8Ignore X))))) =
      some (runLoaded P (decodeUtf8Ignore X)
        (some (save_storage (store_results st0
          (compute_hash (decodeUtf8Ignore X)) (scanFile P (decodeUtf8Ignore X)))))
        (store_results st0 (compute_hash (decodeUtf8Ignore X))
          (scanFile P (decodeUtf8Ignore X)))) := rfl
  rw [hrun2]
  have hget : PersistentStorage.get_results
      (store_results st0 (compute_hash (decodeUtf8Ignore X))
        (scanFile P (decodeUtf8Ignore X)))
      (compute_hash (decodeUtf8Ignore X)) =
      some (scanFile P (decodeUtf8Ignore X)) := by
    show dictGet (dictSet st0 _ _) _ = _
    rw [dictGet_dictSet, if_pos rfl]
  rw [runLoaded, hget]
  by_cases hT : (scanFile P (decodeUtf8Ignore X)).isEmpty = true
  · have hSS : store_results
        (store_results st0 (compute_hash (decodeUtf8Ignore X))
          (scanFile P (decodeUtf8Ignore X)))
        (compute_hash (decodeUtf8Ignore X)) (scanFile P (decodeUtf8Ignore X)) =
        store_results st0 (compute_hash (decodeUtf8Ignore X))
          (scanFile P (decodeUtf8Ignore X)) :=
      dictSet_dictSet_self st0 _ _ _
    simp [truthy, hT, hSS]
  · simp [truthy, hT]

/-- C6 witness: the theorem applied at pattern list ["a"], file "a" and the
empty in-memory storage. -/
theorem cache_transparency_witness :
    (([[97]] : List PyStr) ≠ [] ∧ ([] : PyStr) ∉ ([[97]] : List PyStr) ∧
      PersistentStorage.get_results ([] : Storage) (fileDigest [97]) = none) ∧
    run [[97]] [97] (some (StoreFile.valid [([97], [([97], 1)])])) =
      some ([([97], 1)], some (StoreFile.valid [([97], [([97], 1)])])) :=
  ⟨⟨by decide, by decide, by decide⟩,
    cache_transparency [[97]] [97] [] (by decide) (by decide) (by decide)
      [([97], 1)] (some (StoreFile.valid [([97], [([97], 1)])])) (by decide)⟩

/-! ### Claim C7: digest chunk independence -/

/-- C7: the digest accumulator is fed the same byte sequence for every
splitting of the decoded text into chunks, so the digest is independent of
chunk boundaries and equal to the digest the program computes with its own
fixed chunking. -/
theorem digest_chunk_independent (text : PyStr) (chunks : List PyStr)
    (h : chunks.flatten = text) :
    chunks.foldl hasherUpdate [] = compute_hash text := by
  rw [foldl_hasherUpdate, h, compute_hash_eq_encode]
  simp

/-- C7 witness: the theorem applied at the text "ab" split into the chunks
"a" and "b". -/
theorem digest_chunk_independent_witness :
    ([[97], [98]] : List PyStr).flatten = [97, 98] ∧
    ([[97], [98]] : List PyStr).foldl hasherUpdate [] = compute_hash [97, 98] :=
  ⟨by decide, digest_chunk_independent [97, 98] [[97], [98]] (by decide)⟩

/-! ### Claim C8: cache round-trip -/

/-- C8: after any sequence of `store_results` writes, serializing the
in-memory store with `save_storage` and reloading it with `_load_storage`
returns a store in which every written key maps to the last table stored for
it. -/
theorem cache_round_trip (st0 : Storage) (writes : List (List Nat × Table))
    (k : List Nat) (v : Table) (h : lastWrite writes k = some v) :
    ∀ stL, load_storage (some (save_storage
        (writes.foldl (fun st w => store_results st w.1 w.2) st0))) = Except.ok stL →
      PersistentStorage.get_results stL k = some v := by
  intro stL hload
  have hst : stL = writes.foldl (fun st w => store_results st w.1 w.2) st0 := by
    have hl : load_storage (some (save_storage
        (writes.foldl (fun st w => store_results st w.1 w.2) st0))) =
        Except.ok (writes.foldl (fun st w => store_results st w.1 w.2) st0) := rfl
    rw [hl] at hload
    injection hload with h'
    exact h'.symm
  subst hst
  show dictGet _ k = some v
  rw [dictGet_foldl_dictSet_writes, h]

/-- C8 witness: the theorem applied to three writes, the first key being
overwritten by the third write. -/
theorem cache_round_trip_witness :
    lastWrite [([1], [([97], 2)]), ([2], []), ([1], [([97], 5)])] [1] = some [([97], 5)] ∧
    PersistentStorage.get_results [([1], [([97], 5)]), ([2], [])] [1] = some [([97], 5)] :=
  ⟨by decide,
    cache_round_trip [] [([1], [([97], 2)]), ([2], []), ([1], [([97], 5)])] [1] [([97], 5)]
      (by decide) [([1], [([97], 5)]), ([2], [])] rfl⟩

/-! ### Claim C9: an empty cached table is a miss -/

/-- C9: if the store maps the input's digest to an empty table, the run's
truthiness test `if results:` fails and the orchestrator performs a full
scan and re-stores its result instead of returning the cached entry. -/
theorem empty_cached_table_rescans (P : List PyStr) (X : List Nat) (st0 : Storage)
    (_hP1 : P ≠ []) (_hP2 : ([] : PyStr) ∉ P)
    (h : PersistentStorage.get_results st0 (fileDigest X) = some []) :
    run P X (some (StoreFile.valid st0)) =
      some (scanFile P (decodeUtf8Ignore X),
        some (save_storage (store_results st0 (fileDigest X)
          (scanFile P (decodeUtf8Ignore X))))) := by
  have hdg : fileDigest X = compute_hash (decodeUtf8Ignore X) := rfl
  rw [hdg] at h
  rw [hdg]
  have hrun : run P X (some (StoreFile.valid st0)) =
      some (runLoaded P (decodeUtf8Ignore X) (some (StoreFile.valid st0)) st0) := rfl
  rw [hrun, runLoaded, h]
  simp [truthy]

/-- C9 witness: the theorem applied at pattern list ["a"], file "a" and a
storage that maps the file's digest to the empty table. -/
theorem empty_cached_table_rescans_witness :
    (([[97]] : List PyStr) ≠ [] ∧ ([] : PyStr) ∉ ([[97]] : List PyStr) ∧
      PersistentStorage.get_results [([97], [])] (fileDigest [97]) = some []) ∧
    run [[97]] [97] (some (StoreFile.valid [([97], [])])) =
      some (scanFile [[97]] (decodeUtf8Ignore [97]),
        some (save_storage (store_results [([97], [])] (fileDigest [97])
          (scanFile [[97]] (decodeUtf8Ignore [97]))))) :=
  ⟨⟨by decide, by decide, by decide⟩,
    empty_cached_table_rescans [[97]] [97] [([97], [])] (by decide) (by decide) (by decide)⟩

/-! ### Claim C10: the digest hashes the re-encoded decoded text -/

/-- C10: the digest is computed over the UTF-8 re-encoding of the file
decoded with undecodable bytes dropped, not over the raw bytes: the byte
strings "a\x80b" and "ab" differ but receive the same digest (and that
digest differs from the raw bytes of the first input). -/
theorem digest_ignores_invalid_bytes :
    ([97, 128, 98] : List Nat) ≠ [97, 98] ∧
    fileDigest [97, 128, 98] = fileDigest [97, 98] ∧
    fileDigest [97, 128, 98] ≠ [97, 128, 98] := by decide

end MyReader
